import Mathlib

/-!
Verification of the connection/retry layer of the mcp-cli repository.

The definitions below are a shallow embedding of `src/client.ts`,
`src/config.ts`, `src/commands/list.ts` and `src/commands/grep.ts`:

* JS strings are Lean `String`s; `String.prototype.includes` is substring
  containment on the character lists; `toLowerCase` is `String.toLower`
  (the error messages involved are ASCII).
* JS numbers appearing in the backoff arithmetic are modelled as `ℚ`
  (the values involved are small enough that double arithmetic is exact
  on the integer parts, and the jitter draw is an arbitrary rational in
  `[0, 1)`); `Math.round x` is `round x = ⌊x + 1/2⌋`.
* `async` operations that can throw are `Except String α` (an `Error` is
  represented by its message, which is all the classifier inspects).
* The effectful operation passed to `withRetry` is a function from the
  attempt index to that attempt's outcome, and the stream of
  `Math.random()` draws is a function from the attempt index to `ℚ`;
  `withRetry` additionally returns the number of attempts executed and
  the list of backoff delays slept, so that the retry-count claims can
  be stated.
* JS plain objects used as string maps (`process.env`, `config.env`,
  the merged environment) are association lists in insertion order;
  property assignment overwrites in place or appends.
-/

namespace McpCli

/-- JS `s.includes(pat)`: substring containment. -/
def strIncludes (s pat : String) : Bool :=
  decide (pat.toList <:+: s.toList)

/-- JS `s.toLowerCase()` on the ASCII messages involved: lower-case each
character. -/
def toLowerStr (s : String) : String :=
  String.mk (s.toList.map Char.toLower)

/-- Embeds `isTransientError` (src/client.ts lines 52-74): the chain of
early returns on case-insensitive substring tests of the message. -/
def isTransientError (message : String) : Bool :=
  let m := toLowerStr message
  strIncludes m "econnrefused" ||
  strIncludes m "econnreset" ||
  strIncludes m "etimedout" ||
  strIncludes m "enotfound" ||
  strIncludes m "epipe" ||
  strIncludes m "network" ||
  strIncludes m "502" ||
  strIncludes m "503" ||
  strIncludes m "504" ||
  strIncludes m "429" ||
  strIncludes m "connection" ||
  strIncludes m "timeout"

/-- The substrings actually tested by `isTransientError`, in source order. -/
def codeTransientPatterns : List String :=
  ["econnrefused", "econnreset", "etimedout", "enotfound", "epipe", "network",
   "502", "503", "504", "429", "connection", "timeout"]

/-- Modelled from the spec: the transient-substring list as the spec
spells it ("connection-refused, connection-reset, timed-out,
host-not-found, broken-pipe, network, connection, timeout, 429, 502,
503, 504"), to be compared with the classifier the code implements. -/
def specTransientPatterns : List String :=
  ["connection-refused", "connection-reset", "timed-out", "host-not-found",
   "broken-pipe", "network", "connection", "timeout", "429", "502", "503", "504"]

/-- Modelled from the spec: a classifier returning transient exactly when
the message contains one of the spec's listed substrings
(case-insensitively). -/
def specClaimTransient (message : String) : Bool :=
  specTransientPatterns.any fun pat => strIncludes (toLowerStr message) pat

/-- Embeds `RetryConfig` (src/client.ts lines 37-41). -/
structure RetryConfig where
  maxRetries : Nat
  baseDelayMs : ℚ
  maxDelayMs : ℚ
deriving DecidableEq

/-- Embeds `DEFAULT_RETRY_CONFIG` (src/client.ts lines 43-47). -/
def DEFAULT_RETRY_CONFIG : RetryConfig :=
  { maxRetries := 3, baseDelayMs := 1000, maxDelayMs := 10000 }

/-- The capped exponential delay before jitter:
`min(baseDelayMs * 2^attempt, maxDelayMs)` (src/client.ts lines 80-81). -/
def cappedDelay (attempt : Nat) (config : RetryConfig) : ℚ :=
  min (config.baseDelayMs * 2 ^ attempt) config.maxDelayMs

/-- Embeds `calculateDelay` (src/client.ts lines 79-85); `rand` is the
`Math.random()` draw in `[0, 1)`. -/
def calculateDelay (attempt : Nat) (config : RetryConfig) (rand : ℚ) : ℤ :=
  let cd := cappedDelay attempt config
  let jitter := cd * (1 / 4) * (rand * 2 - 1)
  round (cd + jitter)

/-- Embeds the loop of `withRetry` (src/client.ts lines 97-125) from a
given attempt index with a given number of retries still allowed
(`remaining = config.maxRetries - attempt`, so `remaining > 0` is the
source's `attempt < config.maxRetries` test).  Returns the final
outcome, the number of attempts executed, and the delays slept. -/
def withRetryFrom (fn : Nat → Except String α) (rand : Nat → ℚ)
    (config : RetryConfig) : Nat → Nat → Except String α × Nat × List ℤ
  | attempt, remaining =>
    match fn attempt with
    | .ok v => (.ok v, 1, [])
    | .error e =>
      match remaining with
      | 0 => (.error e, 1, [])
      | r + 1 =>
        if isTransientError e then
          let rest := withRetryFrom fn rand config (attempt + 1) r
          (rest.1, rest.2.1 + 1, calculateDelay attempt config (rand attempt) :: rest.2.2)
        else
          (.error e, 1, [])

/-- Embeds `withRetry` (src/client.ts lines 97-125): start at attempt 0
with `config.maxRetries` retries allowed. -/
def withRetry (fn : Nat → Except String α) (rand : Nat → ℚ)
    (config : RetryConfig) : Except String α × Nat × List ℤ :=
  withRetryFrom fn rand config 0 config.maxRetries

/-- A server entry of the configuration file as the raw JSON object it
is at runtime (src/config.ts models it as the untagged union
`StdioServerConfig | HttpServerConfig`): each field is present or
absent, nothing rules out both `command` and `url` or neither. -/
structure ServerConfig where
  command : Option String
  args : Option (List String)
  env : Option (List (String × String))
  cwd : Option String
  url : Option String
  headers : Option (List (String × String))
  timeout : Option ℤ
deriving DecidableEq

/-- Embeds `isHttpServer` (src/config.ts lines 45-47): `'url' in config`. -/
def isHttpServer (config : ServerConfig) : Bool :=
  config.url.isSome

/-- Embeds `isStdioServer` (src/config.ts lines 52-56): `'command' in config`. -/
def isStdioServer (config : ServerConfig) : Bool :=
  config.command.isSome

/-- The transport handle a successful factory call produces: the variant
plus the constructor arguments the source passes to it. -/
inductive TransportHandle
  | http (url : String) (headers : Option (List (String × String)))
  | stdio (command : Option String) (args : Option (List String))
      (env : List (String × String)) (cwd : Option String)
deriving DecidableEq

/-- JS property assignment `m[k] = v` on a string-keyed object modelled
as an insertion-ordered association list: overwrite in place when the
key exists, append otherwise. -/
def setKey (m : List (String × String)) (k v : String) :
    List (String × String) :=
  if m.any fun p => p.1 == k then
    m.map fun p => if p.1 == k then (k, v) else p
  else
    m ++ [(k, v)]

/-- Assign each entry in order (the `for` loop / `Object.assign`). -/
def assignEntries (m : List (String × String))
    (entries : List (String × String)) : List (String × String) :=
  entries.foldl (fun acc p => setKey acc p.1 p.2) m

/-- The ambient `process.env` entries whose value is defined
(`value !== undefined`), in iteration order. -/
def definedEntries (ambient : List (String × Option String)) :
    List (String × String) :=
  ambient.filterMap fun p => p.2.map fun v => (p.1, v)

/-- The environment merge of `createStdioTransport` (src/client.ts lines
185-203): copy every defined ambient entry, then `Object.assign` the
descriptor's `env` over it. -/
def mergedEnv (ambient : List (String × Option String))
    (cfgEnv : Option (List (String × String))) : List (String × String) :=
  let base := assignEntries [] (definedEntries ambient)
  match cfgEnv with
  | some env => assignEntries base env
  | none => base

/-- Embeds `createHttpTransport` (src/client.ts lines 168-180), modulo
URL parsing, which no claim depends on. -/
def createHttpTransport (config : ServerConfig) : TransportHandle :=
  .http (config.url.getD "") config.headers

/-- Embeds `createStdioTransport` (src/client.ts lines 185-203). -/
def createStdioTransport (ambient : List (String × Option String))
    (config : ServerConfig) : TransportHandle :=
  .stdio config.command config.args (mergedEnv ambient config.env) config.cwd

/-- Embeds the transport-selection step of `connectToServer`
(src/client.ts lines 146-152): `if (isHttpServer(config))` pick the
HTTP factory, else the stdio factory.  No validation precedes it. -/
def selectTransport (ambient : List (String × Option String))
    (config : ServerConfig) : TransportHandle :=
  if isHttpServer config then createHttpTransport config
  else createStdioTransport ambient config

/-- Embeds `ToolInfo` (src/client.ts lines 28-32); the opaque
`inputSchema` object is pass-through data. -/
structure ToolInfo where
  name : String
  description : Option String
  inputSchema : List (String × String)
deriving DecidableEq

/-- A `listTools` discovery call on a connected session: the session is
abstracted by the tool list the server reports, and a counter of
discovery round-trips is threaded through. -/
def listToolsOp (serverTools : List ToolInfo) (discoveryCalls : Nat) :
    List ToolInfo × Nat :=
  (serverTools, discoveryCalls + 1)

/-- Embeds `getTool` (src/client.ts lines 225-231): one `listTools`
discovery, then `tools.find((t) => t.name === toolName)`. -/
def getTool (serverTools : List ToolInfo) (discoveryCalls : Nat)
    (toolName : String) : Option ToolInfo × Nat :=
  let r := listToolsOp serverTools discoveryCalls
  (r.1.find? fun t => t.name == toolName, r.2)

/-- Embeds `ServerWithTools` (src/commands/list.ts lines 20-23). -/
structure ServerWithTools where
  name : String
  tools : List ToolInfo
deriving DecidableEq

/-- The placeholder entry the list command records for a failed server
(src/commands/list.ts lines 55-63). -/
def errorTool (message : String) : ToolInfo :=
  { name := "<error: " ++ message ++ ">", description := none, inputSchema := [] }

/-- Embeds the enumeration loop of `listCommand` (src/commands/list.ts
lines 42-66).  `connectAndList` abstracts the effectful
`getServerConfig` + `connectToServer` + `listTools` + `close` sequence
for one server: its `Except` value is that sequence's outcome. -/
def listCommandServers
    (connectAndList : String → Except String (List ToolInfo))
    (serverNames : List String) : List ServerWithTools :=
  serverNames.map fun serverName =>
    match connectAndList serverName with
    | .ok tools => { name := serverName, tools := tools }
    | .error e => { name := serverName, tools := [errorTool e] }

/-- Embeds `SearchResult` (src/commands/grep.ts lines 22-25). -/
structure SearchResult where
  server : String
  tool : ToolInfo
deriving DecidableEq

/-- The match test of the grep loop (src/commands/grep.ts lines 68-77):
name, `server/name` path, or description (a JS truthiness test, so an
empty-string description never matches).  `test` abstracts the compiled
pattern's `RegExp.test`. -/
def toolMatches (test : String → Bool) (serverName : String)
    (t : ToolInfo) : Bool :=
  test t.name || test (serverName ++ "/" ++ t.name) ||
    (match t.description with
     | some d => !(d == "") && test d
     | none => false)

/-- Embeds the enumeration loop of `grepCommand` (src/commands/grep.ts
lines 56-87): matched tools are pushed per server in order; a failing
server contributes no results, only a debug-gated warning line.
Returns the results and the emitted diagnostics. -/
def grepRun (connectAndList : String → Except String (List ToolInfo))
    (test : String → Bool) (debug : Bool) :
    List String → List SearchResult × List String
  | [] => ([], [])
  | serverName :: rest =>
    let tail := grepRun connectAndList test debug rest
    match connectAndList serverName with
    | .ok tools =>
      ((tools.filter (toolMatches test serverName)).map
          (fun t => { server := serverName, tool := t }) ++ tail.1,
        tail.2)
    | .error e =>
      (tail.1,
        (if debug then
           ["Warning: Failed to connect to " ++ serverName ++ ": " ++ e]
         else []) ++ tail.2)

/-- Association-list lookup of the first entry with the given key
(what property access reads on the JS object). -/
def lookupEnv (m : List (String × String)) (k : String) : Option String :=
  (m.find? fun p => p.1 == k).map Prod.snd

/-- The value of the last entry with the given key in an entry list: the
value that survives when the entries are assigned in order. -/
def lastVal : List (String × String) → String → Option String
  | [], _ => none
  | p :: es, k =>
    match lastVal es k with
    | some v => some v
    | none => if p.1 == k then some p.2 else none

/-- Example configurations used by the closed witness and counterexample
statements. -/
def bothFieldsConfig : ServerConfig :=
  { command := some "mcp-server", args := none, env := none, cwd := none,
    url := some "http://example.com", headers := none, timeout := none }

/-- A descriptor with neither a `command` nor a `url` field. -/
def neitherFieldConfig : ServerConfig :=
  { command := none, args := none, env := none, cwd := none,
    url := none, headers := none, timeout := none }

/-- A descriptor carrying both a `url` and a `command`. -/
def urlAndCommandConfig : ServerConfig :=
  { command := some "local-server", args := none, env := none, cwd := none,
    url := some "https://mcp.example.com", headers := none, timeout := none }

/-- A small concrete tool list. -/
def exampleTools : List ToolInfo :=
  [{ name := "echo", description := some "Echo a message", inputSchema := [] },
   { name := "add", description := none, inputSchema := [("type", "object")] }]

/-- A concrete per-server outcome map in which exactly the server named
`beta` is unreachable. -/
def exampleOutcome : String → Except String (List ToolInfo) := fun n =>
  if n == "beta" then Except.error "ECONNREFUSED: connection refused"
  else Except.ok [{ name := n ++ "-tool", description := none, inputSchema := [] }]

/-- A concrete per-server outcome map in which the server named `down`
is unreachable. -/
def grepOutcome : String → Except String (List ToolInfo) := fun n =>
  if n == "down" then Except.error "connect ETIMEDOUT"
  else Except.ok [{ name := "files-read", description := none, inputSchema := [] }]

/-- Helper: when every attempt fails with a transient error, the retry
loop runs `remaining + 1` attempts from any start and ends with the last
attempt's outcome. -/
theorem withRetryFrom_allTransient (fn : Nat → Except String α) (rand : Nat → ℚ)
    (config : RetryConfig)
    (h : ∀ i, ∃ e, fn i = .error e ∧ isTransientError e = true) :
    ∀ r attempt,
      (withRetryFrom fn rand config attempt r).1 = fn (attempt + r) ∧
      (withRetryFrom fn rand config attempt r).2.1 = r + 1 := by
  intro r
  induction r with
  | zero =>
    intro attempt
    obtain ⟨e, he, -⟩ := h attempt
    simp [withRetryFrom, he]
  | succ n ih =>
    intro attempt
    obtain ⟨e, he, ht⟩ := h attempt
    have hrec := ih (attempt + 1)
    rw [withRetryFrom, he]
    simp only [ht, if_true]
    refine ⟨?_, ?_⟩
    · rw [hrec.1]
      congr 1
      omega
    · rw [hrec.2]

/-- C1: when every attempt raises a transient-classified error and
`maxRetries = 3`, `withRetry` executes the operation exactly 4 times
(1 initial attempt plus 3 retries) and returns the outcome of the last
attempt verbatim — the original error, not a wrapper. -/
theorem withRetry_transient_exhaustion (fn : Nat → Except String α) (rand : Nat → ℚ)
    (config : RetryConfig) (hmax : config.maxRetries = 3)
    (h : ∀ i, ∃ e, fn i = .error e ∧ isTransientError e = true) :
    (withRetry fn rand config).2.1 = 4 ∧
    (withRetry fn rand config).1 = fn 3 := by
  have := withRetryFrom_allTransient fn rand config h 3 0
  unfold withRetry
  rw [hmax]
  exact ⟨this.2, this.1⟩

/-- C1 witness: an operation that always fails with message "timeout"
is attempted 4 times under the default policy and the error comes back
unchanged. -/
theorem withRetry_transient_exhaustion_witness :
    (withRetry (fun _ => (Except.error "timeout" : Except String Unit)) (fun _ => (0 : ℚ))
        DEFAULT_RETRY_CONFIG).2.1 = 4 ∧
    (withRetry (fun _ => (Except.error "timeout" : Except String Unit)) (fun _ => (0 : ℚ))
        DEFAULT_RETRY_CONFIG).1 = Except.error "timeout" :=
  withRetry_transient_exhaustion _ _ _ rfl (fun _ => ⟨"timeout", rfl, by decide⟩)

/-- C2 counterexample: the claim's own substring list, applied as the
claim says (case-insensitive containment), marks the message
"timed-out" transient, but `isTransientError` classifies it fatal: the
code matches "etimedout"/"timeout", not the hyphenated names the claim
lists. -/
theorem classifier_spec_list_counterexample :
    specClaimTransient "timed-out" = true ∧ isTransientError "timed-out" = false := by
  decide

/-- C2 (amended): the classifier returns transient exactly when the
lower-cased message contains one of the twelve substrings the code
actually tests — econnrefused, econnreset, etimedout, enotfound, epipe,
network, 502, 503, 504, 429, connection, timeout — and fatal
otherwise. -/
theorem isTransientError_iff_code_patterns (message : String) :
    isTransientError message =
      codeTransientPatterns.any fun pat => strIncludes (toLowerStr message) pat := by
  simp [isTransientError, codeTransientPatterns, List.any_cons, List.any_nil, Bool.or_assoc]

/-- C3: the list command reports every configured server exactly once,
in configuration order; an entry whose connect/list outcome failed
carries the error placeholder tool, and a successful entry carries the
server's real tool list. -/
theorem listCommand_isolation
    (connectAndList : String → Except String (List ToolInfo))
    (serverNames : List String) :
    (listCommandServers connectAndList serverNames).map ServerWithTools.name
       = serverNames ∧
    ∀ s ∈ listCommandServers connectAndList serverNames,
      (∀ tools, connectAndList s.name = .ok tools → s.tools = tools) ∧
      (∀ e, connectAndList s.name = .error e → s.tools = [errorTool e]) := by
  constructor
  · induction serverNames with
    | nil => rfl
    | cons n rest ih =>
      cases h : connectAndList n with
      | ok tools => simpa [listCommandServers, h] using ih
      | error e => simpa [listCommandServers, h] using ih
  · intro s hs
    rcases List.mem_map.mp hs with ⟨n, hn, hfn⟩
    cases h : connectAndList n with
    | ok tools =>
      rw [h] at hfn
      subst hfn
      constructor
      · intro tools2 h2
        have h2n : connectAndList n = Except.ok tools2 := h2
        rw [h] at h2n
        exact Except.ok.inj h2n
      · intro e h2
        have h2n : connectAndList n = Except.error e := h2
        rw [h] at h2n
        exact Except.noConfusion h2n
    | error e =>
      rw [h] at hfn
      subst hfn
      constructor
      · intro tools2 h2
        have h2n : connectAndList n = Except.ok tools2 := h2
        rw [h] at h2n
        exact Except.noConfusion h2n
      · intro e2 h2
        have h2n : connectAndList n = Except.error e2 := h2
        rw [h] at h2n
        show [errorTool e] = [errorTool e2]
        rw [Except.error.inj h2n]

/-- C3 witness: with servers alpha, beta, gamma and beta unreachable,
all three names appear in order and the beta entry is the placeholder. -/
theorem listCommand_isolation_witness :
    ((listCommandServers exampleOutcome ["alpha", "beta", "gamma"]).map
       ServerWithTools.name = ["alpha", "beta", "gamma"]) ∧
    ({ name := "beta",
       tools := [errorTool "ECONNREFUSED: connection refused"] } :
         ServerWithTools).tools = [errorTool "ECONNREFUSED: connection refused"] :=
  ⟨(listCommand_isolation exampleOutcome ["alpha", "beta", "gamma"]).1,
   ((listCommand_isolation exampleOutcome ["alpha", "beta", "gamma"]).2
      { name := "beta", tools := [errorTool "ECONNREFUSED: connection refused"] }
      (by decide)).2 "ECONNREFUSED: connection refused" rfl⟩

/-- C4 counterexample: a descriptor with both a `command` and a `url`
field, and one with neither, are not rejected: the transport-selection
step of `connectToServer` builds a transport handle from each (HTTP for
the former, stdio with an absent command for the latter). -/
theorem descriptor_validation_counterexample :
    selectTransport [] bothFieldsConfig =
      TransportHandle.http "http://example.com" none ∧
    selectTransport [] neitherFieldConfig =
      TransportHandle.stdio none none [] none := by
  constructor <;> rfl

/-- C4 (amended): nothing validates the descriptor's shape before
transport construction: a descriptor with both fields is routed to the
HTTP transport (the `url` field wins), and one with neither field is
routed to the stdio transport with an absent command. -/
theorem selectTransport_no_rejection (ambient : List (String × Option String))
    (config : ServerConfig) :
    (config.command.isSome ∧ config.url.isSome →
      selectTransport ambient config =
        TransportHandle.http (config.url.getD "") config.headers) ∧
    (config.command = none ∧ config.url = none →
      selectTransport ambient config =
        TransportHandle.stdio none config.args (mergedEnv ambient config.env)
          config.cwd) := by
  constructor
  · rintro ⟨-, hu⟩
    simp [selectTransport, isHttpServer, hu, createHttpTransport]
  · rintro ⟨hc, hu⟩
    simp [selectTransport, isHttpServer, hu, createStdioTransport, hc]

/-- C4 witness: the descriptor with neither field is routed to the
stdio transport rather than rejected. -/
theorem selectTransport_no_rejection_witness :
    selectTransport [] neitherFieldConfig =
      TransportHandle.stdio none neitherFieldConfig.args
        (mergedEnv [] neitherFieldConfig.env) neitherFieldConfig.cwd :=
  (selectTransport_no_rejection [] neitherFieldConfig).2 ⟨rfl, rfl⟩

/-- C5 counterexample: with `baseDelayMs = maxDelayMs = 3` and the
jitter draw 0.9, `calculateDelay` returns 4, which exceeds
`maxDelayMs * 1.25 = 3.75`: rounding to the nearest millisecond can
push the delay above the claimed bound. -/
theorem calculateDelay_bound_counterexample :
    calculateDelay 0 { maxRetries := 3, baseDelayMs := 3, maxDelayMs := 3 } (9 / 10) = 4 ∧
    ¬ ((calculateDelay 0 { maxRetries := 3, baseDelayMs := 3, maxDelayMs := 3 } (9 / 10) : ℚ) ≤
        (3 : ℚ) * (5 / 4)) := by
  constructor <;> norm_num [calculateDelay, cappedDelay, round_eq]

/-- C5 (amended): for every attempt, nonnegative policy and jitter draw
in `[0, 1)`, the delay is nonnegative and strictly below
`maxDelayMs * 1.25 + 0.5` (the claimed `maxDelayMs * 1.25` plus the
half-millisecond rounding can add), and the pre-jitter capped delay is
monotonically non-decreasing in the attempt index. -/
theorem calculateDelay_spec (attempt attempt2 : Nat) (config : RetryConfig) (rand : ℚ)
    (hb : 0 ≤ config.baseDelayMs) (hm : 0 ≤ config.maxDelayMs)
    (hr0 : 0 ≤ rand) (hr1 : rand < 1) (hle : attempt ≤ attempt2) :
    0 ≤ calculateDelay attempt config rand ∧
    (calculateDelay attempt config rand : ℚ) < config.maxDelayMs * (5 / 4) + 1 / 2 ∧
    cappedDelay attempt config ≤ cappedDelay attempt2 config := by
  have hcd0 : 0 ≤ cappedDelay attempt config :=
    le_min (mul_nonneg hb (by positivity)) hm
  have hcdm : cappedDelay attempt config ≤ config.maxDelayMs := min_le_right _ _
  set cd := cappedDelay attempt config with hcd
  have hx0 : 0 ≤ cd + cd * (1 / 4) * (rand * 2 - 1) := by
    nlinarith [mul_nonneg hcd0 hr0]
  refine ⟨?_, ?_, ?_⟩
  · unfold calculateDelay
    rw [round_eq]
    rw [← hcd]
    exact Int.floor_nonneg.mpr (by linarith)
  · unfold calculateDelay
    rw [round_eq, ← hcd]
    have hfl : ((⌊cd + cd * (1 / 4) * (rand * 2 - 1) + 1 / 2⌋ : ℤ) : ℚ) ≤
        cd + cd * (1 / 4) * (rand * 2 - 1) + 1 / 2 := Int.floor_le _
    rcases eq_or_lt_of_le hcd0 with h0 | h0
    · have hx : cd + cd * (1 / 4) * (rand * 2 - 1) = 0 := by rw [← h0]; ring
      rw [hx]
      have : (⌊(0 : ℚ) + 1 / 2⌋ : ℤ) = 0 := by norm_num
      rw [this]
      push_cast
      linarith
    · have hxstrict : cd + cd * (1 / 4) * (rand * 2 - 1) < cd * (5 / 4) := by
        nlinarith [mul_pos h0 (show (0 : ℚ) < 2 - 2 * rand by linarith)]
      calc ((⌊cd + cd * (1 / 4) * (rand * 2 - 1) + 1 / 2⌋ : ℤ) : ℚ)
          ≤ cd + cd * (1 / 4) * (rand * 2 - 1) + 1 / 2 := hfl
        _ < cd * (5 / 4) + 1 / 2 := by linarith
        _ ≤ config.maxDelayMs * (5 / 4) + 1 / 2 := by linarith
  · unfold cappedDelay
    exact min_le_min
      (mul_le_mul_of_nonneg_left (pow_le_pow_right₀ (by norm_num) hle) hb) le_rfl

/-- C5 witness: the amended bounds at attempt 1 versus 2 under the
default policy with jitter draw 0.5. -/
theorem calculateDelay_spec_witness :
    0 ≤ calculateDelay 1 DEFAULT_RETRY_CONFIG (1 / 2) ∧
    (calculateDelay 1 DEFAULT_RETRY_CONFIG (1 / 2) : ℚ) <
      DEFAULT_RETRY_CONFIG.maxDelayMs * (5 / 4) + 1 / 2 ∧
    cappedDelay 1 DEFAULT_RETRY_CONFIG ≤ cappedDelay 2 DEFAULT_RETRY_CONFIG :=
  calculateDelay_spec 1 2 DEFAULT_RETRY_CONFIG (1 / 2) (by norm_num [DEFAULT_RETRY_CONFIG])
    (by norm_num [DEFAULT_RETRY_CONFIG]) (by norm_num) (by norm_num) (by norm_num)

/-- Helper: looking a key up after overwriting every entry holding `k`
finds the new value when the list held `k` at all. -/
theorem lookupEnv_map_hit (m : List (String × String)) (k v : String)
    (hany : (m.any fun p => p.1 == k) = true) :
    lookupEnv (m.map fun p => if p.1 == k then (k, v) else p) k = some v := by
  induction m with
  | nil => simp at hany
  | cons p m ih =>
    by_cases hp : p.1 = k
    · simp [lookupEnv, hp, List.find?]
    · have hp2 : (p.1 == k) = false := by simpa using hp
      have hany2 : (m.any fun p => p.1 == k) = true := by
        simpa [List.any_cons, hp2] using hany
      simpa [lookupEnv, hp2, List.find?] using ih hany2

/-- Helper: overwriting the entries holding `k` leaves lookups of other
keys unchanged. -/
theorem lookupEnv_map_miss (m : List (String × String)) (k v q : String)
    (hq : (k == q) = false) :
    lookupEnv (m.map fun p => if p.1 == k then (k, v) else p) q = lookupEnv m q := by
  induction m with
  | nil => rfl
  | cons p m ih =>
    by_cases hp : p.1 = k
    · have hpq : (p.1 == q) = false := by
        subst hp
        exact hq
      simp only [List.map_cons, lookupEnv, List.find?]
      rw [if_pos (by simpa using hp)]
      simp only [List.find?, hq, hpq]
      exact ih
    · have hp2 : (p.1 == k) = false := by simpa using hp
      simp only [List.map_cons, lookupEnv, List.find?]
      rw [if_neg (by simp [hp2])]
      by_cases hpq : p.1 = q
      · simp [hpq]
      · have hpq2 : (p.1 == q) = false := by simpa using hpq
        simp only [hpq2]
        exact ih

/-- Helper: appending a fresh entry `(k, v)` behaves as an update for
lookups. -/
theorem lookupEnv_append_single (m : List (String × String)) (k v q : String)
    (hany : (m.any fun p => p.1 == k) = false) :
    lookupEnv (m ++ [(k, v)]) q = if k == q then some v else lookupEnv m q := by
  induction m with
  | nil =>
    by_cases hq : k = q
    · simp [lookupEnv, List.find?, hq]
    · have hq2 : (k == q) = false := by simpa using hq
      simp [lookupEnv, List.find?, hq2]
  | cons p m ih =>
    have hp : (p.1 == k) = false := by
      by_contra hc
      simp only [Bool.not_eq_false] at hc
      simp [List.any_cons, hc] at hany
    have hany2 : (m.any fun p => p.1 == k) = false := by
      simpa [List.any_cons, hp] using hany
    by_cases hpq : p.1 = q
    · have hkq : (k == q) = false := by
        have : p.1 ≠ k := by simpa using hp
        subst hpq
        simp only [beq_eq_false_iff_ne]
        intro he
        exact this he.symm
      simp [lookupEnv, List.find?, hpq, hkq]
    · have hpq2 : (p.1 == q) = false := by simpa using hpq
      simp only [List.cons_append, lookupEnv, List.find?, hpq2]
      exact ih hany2

/-- Helper: `setKey` is an update with respect to lookups. -/
theorem lookupEnv_setKey (m : List (String × String)) (k v q : String) :
    lookupEnv (setKey m k v) q = if k == q then some v else lookupEnv m q := by
  unfold setKey
  by_cases hany : (m.any fun p => p.1 == k) = true
  · rw [if_pos hany]
    by_cases hq : k = q
    · subst hq
      rw [lookupEnv_map_hit m k v hany]
      simp
    · have hq2 : (k == q) = false := by simpa using hq
      rw [lookupEnv_map_miss m k v q hq2, if_neg (by simpa using hq)]
  · have hany2 : (m.any fun p => p.1 == k) = false := by
      rwa [Bool.not_eq_true] at hany
    rw [if_neg (by simp [hany2]), lookupEnv_append_single m k v q hany2]

/-- Helper: assigning a list of entries over a map makes the last
assigned value of a key win, falling back to the original map. -/
theorem lookupEnv_assignEntries (es : List (String × String)) :
    ∀ m q, lookupEnv (assignEntries m es) q =
      match lastVal es q with
      | some v => some v
      | none => lookupEnv m q := by
  induction es with
  | nil => intro m q; rfl
  | cons p es ih =>
    intro m q
    have hstep : assignEntries m (p :: es) = assignEntries (setKey m p.1 p.2) es := rfl
    rw [hstep, ih (setKey m p.1 p.2) q, lookupEnv_setKey]
    cases hlv : lastVal es q with
    | some v => simp [lastVal, hlv]
    | none =>
      by_cases hpq : p.1 = q
      · simp [lastVal, hlv, hpq]
      · have hpq2 : (p.1 == q) = false := by simpa using hpq
        simp [lastVal, hlv, hpq2]

/-- Helper: building a map from scratch by assignment realises exactly
the last-assignment-wins values. -/
theorem lookupEnv_assignEntries_nil (es : List (String × String)) (q : String) :
    lookupEnv (assignEntries [] es) q = lastVal es q := by
  rw [lookupEnv_assignEntries es [] q]
  cases lastVal es q <;> rfl

/-- C6: in the merged stdio environment, every key resolves to the
descriptor's value when the descriptor's env binds it and otherwise to
the defined ambient value — the descriptor wins on collision and
undefined ambient values are dropped; in particular ambient
`A = "1"` with descriptor env `A = "2", B = "3"` yields exactly
`A = "2", B = "3"`. -/
theorem mergedEnv_spec (ambient : List (String × Option String))
    (cfgEnv : List (String × String)) (k : String) :
    (lookupEnv (mergedEnv ambient (some cfgEnv)) k =
      match lastVal cfgEnv k with
      | some v => some v
      | none => lastVal (definedEntries ambient) k) ∧
    mergedEnv [("A", some "1")] (some [("A", "2"), ("B", "3")]) =
      [("A", "2"), ("B", "3")] := by
  constructor
  · show lookupEnv (assignEntries (assignEntries [] (definedEntries ambient)) cfgEnv) k = _
    rw [lookupEnv_assignEntries cfgEnv _ k]
    cases lastVal cfgEnv k with
    | some v => rfl
    | none => exact lookupEnv_assignEntries_nil (definedEntries ambient) k
  · rfl

/-- C7: `getTool` performs exactly one `listTools` discovery and
returns a tool of the session's list bearing exactly the requested
name, or `none` precisely when no tool bears that name. -/
theorem getTool_spec (serverTools : List ToolInfo) (toolName : String) :
    (getTool serverTools 0 toolName).2 = 1 ∧
    ((getTool serverTools 0 toolName).1 = none ↔
      ∀ t ∈ serverTools, t.name ≠ toolName) ∧
    ∀ t, (getTool serverTools 0 toolName).1 = some t →
      t ∈ serverTools ∧ t.name = toolName := by
  refine ⟨rfl, ?_, ?_⟩
  · simp [getTool, listToolsOp, List.find?_eq_none]
  · intro t ht
    simp only [getTool, listToolsOp] at ht
    refine ⟨List.mem_of_find?_eq_some ht, ?_⟩
    have := List.find?_some ht
    simpa using this

/-- C7 witness: a lookup against a concrete session issues exactly one
discovery round-trip. -/
theorem getTool_spec_witness :
    (getTool exampleTools 0 "add").2 = 1 :=
  (getTool_spec exampleTools "add").1

/-- C8: an operation whose first attempt raises a fatal-classified
error is executed exactly once: `withRetry` returns that error
unchanged, after one attempt and zero backoff sleeps. -/
theorem withRetry_fatal_single_attempt (fn : Nat → Except String α) (rand : Nat → ℚ)
    (config : RetryConfig) (e : String)
    (h0 : fn 0 = .error e) (hfatal : isTransientError e = false) :
    withRetry fn rand config = (.error e, 1, []) := by
  unfold withRetry
  cases hm : config.maxRetries with
  | zero => rw [withRetryFrom, h0]
  | succ r =>
    rw [withRetryFrom, h0]
    simp [hfatal]

/-- C8 witness: the message "unauthorized" matches no transient
substring, so the operation runs once and the error is propagated with
no sleeps. -/
theorem withRetry_fatal_single_attempt_witness :
    withRetry (fun _ => (Except.error "unauthorized" : Except String Unit)) (fun _ => (0 : ℚ))
        DEFAULT_RETRY_CONFIG = (Except.error "unauthorized", 1, []) :=
  withRetry_fatal_single_attempt _ _ _ "unauthorized" rfl (by decide)

/-- C9: transport discrimination depends only on the presence of the
`url` field: any descriptor carrying a `url` is routed to the HTTP
transport regardless of a `command` field, and a descriptor with no
`url` is routed to the stdio transport with whatever `command` it holds
(possibly none). -/
theorem selectTransport_url_precedence (ambient : List (String × Option String))
    (config : ServerConfig) :
    (∀ u, config.url = some u →
      selectTransport ambient config = TransportHandle.http u config.headers) ∧
    (config.url = none →
      selectTransport ambient config =
        TransportHandle.stdio config.command config.args
          (mergedEnv ambient config.env) config.cwd) := by
  constructor
  · intro u hu
    simp [selectTransport, isHttpServer, hu, createHttpTransport]
  · intro hu
    simp [selectTransport, isHttpServer, hu, createStdioTransport]

/-- C9 witness: a descriptor carrying both a `url` and a `command` is
routed to the HTTP transport. -/
theorem selectTransport_url_precedence_witness :
    selectTransport [] urlAndCommandConfig =
      TransportHandle.http "https://mcp.example.com" none :=
  (selectTransport_url_precedence [] urlAndCommandConfig).1
    "https://mcp.example.com" rfl

/-- C10: in the grep command, a server whose connect/list outcome fails
contributes no result at all, with the debug toggle unset no diagnostic
line is emitted, and the result list is exactly the one obtained by
enumerating the remaining servers in configuration order. -/
theorem grep_failure_isolation
    (connectAndList : String → Except String (List ToolInfo))
    (test : String → Bool) (serverNames : List String)
    (serverName : String) (e : String)
    (hfail : connectAndList serverName = .error e) :
    ((grepRun connectAndList test false serverNames).1.filter
        (fun r => r.server == serverName) = []) ∧
    ((grepRun connectAndList test false serverNames).2 = []) ∧
    ((grepRun connectAndList test false serverNames).1 =
      (grepRun connectAndList test false
        (serverNames.filter fun n => !(n == serverName))).1) := by
  induction serverNames with
  | nil => exact ⟨rfl, rfl, rfl⟩
  | cons n rest ih =>
    obtain ⟨ih1, ih2, ih3⟩ := ih
    cases hn : connectAndList n with
    | ok tools =>
      have hne : (n == serverName) = false := by
        simp only [beq_eq_false_iff_ne]
        intro he
        rw [he, hfail] at hn
        exact absurd hn (by simp)
      refine ⟨?_, ?_, ?_⟩
      · rw [grepRun]
        simp only [hn, List.filter_append, ih1, List.append_nil]
        rw [List.filter_eq_nil_iff]
        intro r hr
        rcases List.mem_map.mp hr with ⟨t, ht, rfl⟩
        simp [hne]
      · rw [grepRun]
        simp only [hn]
        exact ih2
      · rw [grepRun]
        simp only [List.filter_cons, hne, Bool.not_false, if_pos trivial]
        rw [grepRun]
        simp only [hn]
        rw [ih3]
    | error e2 =>
      refine ⟨?_, ?_, ?_⟩
      · rw [grepRun]
        simp only [hn]
        exact ih1
      · rw [grepRun]
        simp only [hn]
        simpa using ih2
      · rw [grepRun]
        simp only [hn]
        by_cases hns : n = serverName
        · subst hns
          simp only [List.filter_cons, beq_self_eq_true, Bool.not_true]
          simpa using ih3
        · have hne : (n == serverName) = false := by simpa using hns
          simp only [List.filter_cons, hne, Bool.not_false, if_pos trivial]
          rw [grepRun]
          simp only [hn]
          exact ih3

/-- C10 witness: with server `down` unreachable, the grep enumeration
over `up, down` yields no result for `down`, emits no diagnostic, and
equals the enumeration over `up` alone. -/
theorem grep_failure_isolation_witness :
    ((grepRun grepOutcome (fun _ => true) false ["up", "down"]).1.filter
        (fun r => r.server == "down") = []) ∧
    ((grepRun grepOutcome (fun _ => true) false ["up", "down"]).2 = []) ∧
    ((grepRun grepOutcome (fun _ => true) false ["up", "down"]).1 =
      (grepRun grepOutcome (fun _ => true) false
        (["up", "down"].filter fun n => !(n == "down"))).1) :=
  grep_failure_isolation grepOutcome (fun _ => true) ["up", "down"] "down"
    "connect ETIMEDOUT" rfl

end McpCli
